import Mathlib

/-!
Verification of the `System` base class of `hoomd_polymers/base/system.py`
(marjanalbouye/flowerMD).  The embedding follows the source:

* `calculate_L` embeds `System._calculate_L` (the source spells it
  `_calculate_L`; the leading underscore is dropped for Lean).
* `set_target_box` embeds `System.set_target_box`.  A box-edge constraint is
  an `Option ℝ` (`None` ↦ `none`); Python truthiness of a constraint
  (`any([x, y, z])`) is `constraintTruthy`, while the selection of fixed
  edges inside the `else` branch uses `!= None`, i.e. `Option.isSome`,
  exactly as `np.where(constraints != None)` does.
* Atoms of the typed (parmed) structure carry an atomic number, a mass, a
  charge and the list of bonded-partner indices; `parmed`'s `Atom.element`
  is an alias of `Atom.atomic_number`, so the source test `a.element == 1`
  is embedded as `atomic_number = 1`.
* Mutation of the Python atom list is explicit state passing over
  `List Atom`; object identity becomes a position index.
-/

namespace HoomdPolymers

/-! ### Box sizer: `System._calculate_L` and `System.set_target_box` -/

/-- Embedding of `System._calculate_L`.  Mass is in amu, density in g/cm³;
`fixed_L` (when given) already holds the fixed edges in cm, and the result
is in nm.  Python's `L**(1/2)` on a float is real `rpow`. -/
noncomputable def calculate_L (mass density : ℝ) (fixed_L : Option (List ℝ)) : ℝ :=
  let M := mass * 1.66054e-24
  let vol := M / density
  let L :=
    match fixed_L with
    | none => vol ^ ((1 : ℝ) / 3)
    | some fs =>
      let L0 := vol / fs.prod
      if fs.length = 1 then L0 ^ ((1 : ℝ) / 2) else L0
  L * 1e7

/-- Python truthiness of one entry of `[x_constraint, y_constraint,
z_constraint]`: `None` and `0.0` are falsy, every other float is truthy. -/
noncomputable def constraintTruthy (c : Option ℝ) : Bool :=
  match c with
  | none => false
  | some v => if v = 0 then false else true

/-- Embedding of `System.set_target_box`.  Constraints are in nm; the result
is the `target_box` triple `(Lx, Ly, Lz)` in nm. -/
noncomputable def set_target_box (mass density : ℝ)
    (x_constraint y_constraint z_constraint : Option ℝ) : ℝ × ℝ × ℝ :=
  if constraintTruthy x_constraint || constraintTruthy y_constraint ||
      constraintTruthy z_constraint then
    let fixed_L :=
      ([x_constraint, y_constraint, z_constraint].filterMap id).map (fun v => v * 1e-7)
    let L := calculate_L mass density (some fixed_L)
    (x_constraint.getD L, y_constraint.getD L, z_constraint.getD L)
  else
    let L := calculate_L mass density none
    (L, L, L)

/-- C1: with no constraints, `set_target_box` stores a cube: all three edges
equal `(M · 1.66054e-24 / d)^(1/3) · 1e7` nm, and converting an edge back to
cm and cubing reproduces the total mass in grams exactly (hence within any
relative tolerance) when multiplied by the density. -/
theorem C1_unconstrained_cube (mass density : ℝ) (hm : 0 < mass) (hd : 0 < density) :
    set_target_box mass density none none none =
      ((mass * 1.66054e-24 / density) ^ ((1 : ℝ) / 3) * 1e7,
       (mass * 1.66054e-24 / density) ^ ((1 : ℝ) / 3) * 1e7,
       (mass * 1.66054e-24 / density) ^ ((1 : ℝ) / 3) * 1e7) ∧
    ((mass * 1.66054e-24 / density) ^ ((1 : ℝ) / 3) * 1e7 * 1e-7) ^ (3 : ℕ) * density
      = mass * 1.66054e-24 := by
  constructor
  · simp [set_target_box, constraintTruthy, calculate_L]
  · have hV : (0 : ℝ) ≤ mass * 1.66054e-24 / density := by positivity
    have h7 : (1e7 : ℝ) * 1e-7 = 1 := by norm_num
    rw [mul_assoc, h7, mul_one]
    rw [← Real.rpow_natCast ((mass * 1.66054e-24 / density) ^ ((1 : ℝ) / 3)) 3,
      ← Real.rpow_mul hV]
    norm_num
    exact div_mul_cancel₀ _ hd.ne'

/-- C1 witness at mass = 1 amu, density = 1 g/cm³. -/
theorem C1_unconstrained_cube_witness :
    set_target_box 1 1 none none none =
      (((1 : ℝ) * 1.66054e-24 / 1) ^ ((1 : ℝ) / 3) * 1e7,
       ((1 : ℝ) * 1.66054e-24 / 1) ^ ((1 : ℝ) / 3) * 1e7,
       ((1 : ℝ) * 1.66054e-24 / 1) ^ ((1 : ℝ) / 3) * 1e7) ∧
    (((1 : ℝ) * 1.66054e-24 / 1) ^ ((1 : ℝ) / 3) * 1e7 * 1e-7) ^ (3 : ℕ) * 1
      = (1 : ℝ) * 1.66054e-24 :=
  C1_unconstrained_cube 1 1 zero_lt_one zero_lt_one

/-- C2: with exactly one fixed (truthy) edge `f` the two free edges both
equal `sqrt(volume / f_cm) · 1e7` nm with `f_cm = f · 1e-7`, and with two
fixed edges the free edge equals `volume / (f1_cm · f2_cm) · 1e7` nm; in all
cases the fixed edges are stored unchanged.  All fixed-edge positions are
covered. -/
theorem C2_fixed_edges (mass density f f1 f2 : ℝ)
    (hf : f ≠ 0) (hf1 : f1 ≠ 0) (hf2 : f2 ≠ 0) :
    (set_target_box mass density (some f) none none =
      (f, Real.sqrt (mass * 1.66054e-24 / density / (f * 1e-7)) * 1e7,
          Real.sqrt (mass * 1.66054e-24 / density / (f * 1e-7)) * 1e7)) ∧
    (set_target_box mass density none (some f) none =
      (Real.sqrt (mass * 1.66054e-24 / density / (f * 1e-7)) * 1e7, f,
       Real.sqrt (mass * 1.66054e-24 / density / (f * 1e-7)) * 1e7)) ∧
    (set_target_box mass density none none (some f) =
      (Real.sqrt (mass * 1.66054e-24 / density / (f * 1e-7)) * 1e7,
       Real.sqrt (mass * 1.66054e-24 / density / (f * 1e-7)) * 1e7, f)) ∧
    (set_target_box mass density (some f1) (some f2) none =
      (f1, f2, mass * 1.66054e-24 / density / (f1 * 1e-7 * (f2 * 1e-7)) * 1e7)) ∧
    (set_target_box mass density (some f1) none (some f2) =
      (f1, mass * 1.66054e-24 / density / (f1 * 1e-7 * (f2 * 1e-7)) * 1e7, f2)) ∧
    (set_target_box mass density none (some f1) (some f2) =
      (mass * 1.66054e-24 / density / (f1 * 1e-7 * (f2 * 1e-7)) * 1e7, f1, f2)) := by
  refine ⟨?_, ?_, ?_, ?_, ?_, ?_⟩ <;>
    simp [set_target_box, constraintTruthy, hf, hf1, hf2, calculate_L,
      Real.sqrt_eq_rpow]

/-- C2 witness at mass = 1, density = 1, all fixed edges 1 nm. -/
theorem C2_fixed_edges_witness :
    (set_target_box 1 1 (some 1) none none =
      (1, Real.sqrt ((1 : ℝ) * 1.66054e-24 / 1 / (1 * 1e-7)) * 1e7,
          Real.sqrt ((1 : ℝ) * 1.66054e-24 / 1 / (1 * 1e-7)) * 1e7)) ∧
    (set_target_box 1 1 none (some 1) none =
      (Real.sqrt ((1 : ℝ) * 1.66054e-24 / 1 / (1 * 1e-7)) * 1e7, 1,
       Real.sqrt ((1 : ℝ) * 1.66054e-24 / 1 / (1 * 1e-7)) * 1e7)) ∧
    (set_target_box 1 1 none none (some 1) =
      (Real.sqrt ((1 : ℝ) * 1.66054e-24 / 1 / (1 * 1e-7)) * 1e7,
       Real.sqrt ((1 : ℝ) * 1.66054e-24 / 1 / (1 * 1e-7)) * 1e7, 1)) ∧
    (set_target_box 1 1 (some 1) (some 1) none =
      (1, 1, (1 : ℝ) * 1.66054e-24 / 1 / (1 * 1e-7 * (1 * 1e-7)) * 1e7)) ∧
    (set_target_box 1 1 (some 1) none (some 1) =
      (1, (1 : ℝ) * 1.66054e-24 / 1 / (1 * 1e-7 * (1 * 1e-7)) * 1e7, 1)) ∧
    (set_target_box 1 1 none (some 1) (some 1) =
      ((1 : ℝ) * 1.66054e-24 / 1 / (1 * 1e-7 * (1 * 1e-7)) * 1e7, 1, 1)) :=
  C2_fixed_edges 1 1 1 1 1 one_ne_zero one_ne_zero one_ne_zero

/-- C10: a constraint that is `None` or exactly `0` is falsy, so if every
constraint is `None` or `0` the call takes the unconstrained branch and the
target box is the density-derived cube; a `0` constraint is silently
ignored rather than held fixed. -/
theorem C10_zero_constraint_ignored (mass density : ℝ) (xc yc zc : Option ℝ)
    (hx : xc = none ∨ xc = some 0) (hy : yc = none ∨ yc = some 0)
    (hz : zc = none ∨ zc = some 0) :
    set_target_box mass density xc yc zc =
      (calculate_L mass density none, calculate_L mass density none,
       calculate_L mass density none) := by
  have tx : constraintTruthy xc = false := by
    rcases hx with h | h <;> simp [h, constraintTruthy]
  have ty : constraintTruthy yc = false := by
    rcases hy with h | h <;> simp [h, constraintTruthy]
  have tz : constraintTruthy zc = false := by
    rcases hz with h | h <;> simp [h, constraintTruthy]
  simp [set_target_box, tx, ty, tz]

/-- C10 witness: constraints `(0, None, 0)` at mass = 1, density = 1. -/
theorem C10_zero_constraint_ignored_witness :
    set_target_box 1 1 (some 0) none (some 0) =
      (calculate_L 1 1 none, calculate_L 1 1 none, calculate_L 1 1 none) :=
  C10_zero_constraint_ignored 1 1 (some 0) none (some 0)
    (Or.inr rfl) (Or.inl rfl) (Or.inr rfl)

/-! ### Atoms of the typed structure and the post-processing steps of
`System.apply_forcefield` -/

/-- One atom of the typed (parmed) structure.  `bond_partners` holds the
positions of the bonded atoms in the atom list; parmed's `Atom.element` is
an alias of `atomic_number`. -/
structure Atom where
  atomic_number : ℕ
  mass : ℚ
  charge : ℚ
  bond_partners : List ℕ
deriving DecidableEq

/-- Positions (0-based) of the atoms satisfying `p`, starting the count at
`i`; embeds the list comprehensions `[a for a in atoms if ...]`, with the
atom objects replaced by their positions. -/
def idxWhere {α : Type} (p : α → Bool) : List α → ℕ → List ℕ
  | [], _ => []
  | a :: rest, i =>
    if p a then i :: idxWhere p rest (i + 1) else idxWhere p rest (i + 1)

/-- Hydrogen identification of `apply_forcefield`: first by
`a.element == 1`, then (if that found none) by `a.mass == 1.008`; the
returned flag records whether the no-hydrogens warning was emitted. -/
def identify_hydrogens (atoms : List Atom) : List ℕ × Bool :=
  let by_element := idxWhere (fun a => a.atomic_number == 1) atoms 0
  if by_element.length = 0 then
    let by_mass := idxWhere (fun a => a.mass == 1.008) atoms 0
    if by_mass.length = 0 then ([], true) else (by_mass, false)
  else (by_element, false)

/-- One iteration of the loop `for h in hydrogens`: set `h.atomic_number`
to 1, then add `h`'s mass and charge to `h.bond_partners[0]`.  The returned
flag is `true` when `bond_partners` is empty (Python `IndexError`). -/
def adjust_heavy_atom (atoms : List Atom) (h : ℕ) : List Atom × Bool :=
  match atoms.get? h with
  | none => (atoms, false)
  | some ha =>
    let atoms1 := atoms.set h { ha with atomic_number := 1 }
    match ha.bond_partners.head? with
    | none => (atoms1, true)
    | some p =>
      match atoms1.get? p with
      | none => (atoms1, false)
      | some pa =>
        (atoms1.set p
          { pa with mass := pa.mass + ha.mass, charge := pa.charge + ha.charge },
         false)

/-- The whole `for h in hydrogens` loop; stops at the first error. -/
def process_hydrogens : List ℕ → List Atom → List Atom × Bool
  | [], atoms => (atoms, false)
  | h :: rest, atoms =>
    match adjust_heavy_atom atoms h with
    | (a1, true) => (a1, true)
    | (a1, false) => process_hydrogens rest a1

/-- The `remove_hydrogens` block of `apply_forcefield`: identify, adjust
heavy atoms, then `strip` every atom whose `atomic_number` is 1.  Returns
`((atoms, warned), errored)`. -/
def remove_hydrogens_step (atoms : List Atom) : (List Atom × Bool) × Bool :=
  let idres := identify_hydrogens atoms
  let pres := process_hydrogens idres.1 atoms
  if pres.2 then ((pres.1, idres.2), true)
  else ((pres.1.filter (fun a => a.atomic_number != 1), idres.2), false)

def total_mass (atoms : List Atom) : ℚ := (atoms.map Atom.mass).sum

def total_charge (atoms : List Atom) : ℚ := (atoms.map Atom.charge).sum

/-- Modelled from the spec: the charge-neutralization routine
`hoomd_polymers.utils.scale_charges` is imported by `system.py` but its
module is not among the sources; per the spec it rescales the charges,
proportionally redistributing the net charge so that the total sums to
zero.  Each charge gives up the share of the net charge proportional to its
magnitude; when every charge is zero there is nothing to redistribute. -/
def scale_charges (charges : List ℚ) (n_particles : ℕ) : List ℚ :=
  if (charges.map abs).sum = 0 then charges
  else charges.map (fun c => c - |c| / (charges.map abs).sum * charges.sum)

/-- Writing `new_charges` back: `atoms[idx].charge = charge` for
`idx, charge in enumerate(new_charges)`. -/
def write_charges : List Atom → List ℚ → List Atom
  | [], _ => []
  | a :: rest, [] => a :: rest
  | a :: rest, c :: cs => { a with charge := c } :: write_charges rest cs

/-- The `remove_charges` / `make_charge_neutral` block of
`apply_forcefield`. -/
def charge_step (remove_charges make_charge_neutral : Bool)
    (atoms : List Atom) : List Atom :=
  let atoms1 :=
    if remove_charges then atoms.map (fun a => { a with charge := 0 }) else atoms
  if make_charge_neutral && !remove_charges then
    write_charges atoms1 (scale_charges (atoms1.map Atom.charge) atoms1.length)
  else atoms1

/-! ### Helper lemmas -/

theorem idxWhere_eq_nil_iff {α : Type} (p : α → Bool) (l : List α) (i : ℕ) :
    idxWhere p l i = [] ↔ ∀ a ∈ l, p a = false := by
  induction l generalizing i with
  | nil => simp [idxWhere]
  | cons a rest ih =>
    by_cases hpa : p a = true
    · simp [idxWhere, hpa]
    · simp only [Bool.not_eq_true] at hpa
      simp [idxWhere, hpa, ih]

theorem abs_sum_nonneg (l : List ℚ) : 0 ≤ (l.map abs).sum := by
  induction l with
  | nil => simp
  | cons c cs ih => simpa using add_nonneg (abs_nonneg c) ih

theorem sum_eq_zero_of_abs_sum_eq_zero (l : List ℚ)
    (h : (l.map abs).sum = 0) : l.sum = 0 := by
  induction l with
  | nil => simp
  | cons c cs ih =>
    simp only [List.map_cons, List.sum_cons] at h ⊢
    have hc : |c| = 0 := by
      have := abs_sum_nonneg cs
      have := abs_nonneg c
      linarith
    have hcs : (cs.map abs).sum = 0 := by
      rw [hc, zero_add] at h
      exact h
    rw [abs_eq_zero.mp hc, ih hcs, add_zero]

theorem sum_map_sub_share (l : List ℚ) (t s : ℚ) :
    (l.map (fun c => c - |c| / t * s)).sum = l.sum - (l.map abs).sum / t * s := by
  induction l with
  | nil => simp
  | cons c cs ih =>
    simp only [List.map_cons, List.sum_cons, ih]
    ring

theorem scale_charges_length (charges : List ℚ) (n_particles : ℕ) :
    (scale_charges charges n_particles).length = charges.length := by
  unfold scale_charges
  split <;> simp

theorem scale_charges_sum (charges : List ℚ) (n_particles : ℕ) :
    (scale_charges charges n_particles).sum = 0 := by
  unfold scale_charges
  split
  · exact sum_eq_zero_of_abs_sum_eq_zero _ (by assumption)
  · rw [sum_map_sub_share, div_self (by assumption), one_mul, sub_self]

theorem write_charges_map_charge (atoms : List Atom) (cs : List ℚ)
    (h : cs.length = atoms.length) :
    (write_charges atoms cs).map Atom.charge = cs := by
  induction atoms generalizing cs with
  | nil => cases cs with
    | nil => simp [write_charges]
    | cons c cs => simp at h
  | cons a rest ih =>
    cases cs with
    | nil => simp at h
    | cons c cs =>
      simp only [List.length_cons, Nat.succ.injEq] at h
      simp [write_charges, ih cs h]

/-! ### Claims about the charge post-processing (C8, C9) -/

/-- C8: with `remove_charges = true` every atom of the resulting typed
system has charge exactly zero, whatever `make_charge_neutral` is, because
the neutralization branch requires `not remove_charges`. -/
theorem C8_remove_charges_all_zero (make_charge_neutral : Bool)
    (atoms : List Atom) (a : Atom)
    (ha : a ∈ charge_step true make_charge_neutral atoms) : a.charge = 0 := by
  simp only [charge_step, if_true, Bool.not_true, Bool.and_false,
    if_false, Bool.false_eq_true, List.mem_map] at ha
  obtain ⟨b, _, rfl⟩ := ha
  rfl

/-- C8 witness: a carbon atom after `remove_charges` with
`make_charge_neutral = true` as well. -/
theorem C8_remove_charges_all_zero_witness : (Atom.mk 6 12 0 []).charge = 0 :=
  C8_remove_charges_all_zero true [Atom.mk 6 12 2 []] (Atom.mk 6 12 0 [])
    (by simp [charge_step])

/-- C9: with `make_charge_neutral = true` and `remove_charges = false`, the
rescaled charges are written back in order (the charge list of the result
is exactly the `scale_charges` output for the charge list read from the
atoms), and the total charge of the result is zero. -/
theorem C9_make_charge_neutral (atoms : List Atom) :
    (charge_step false true atoms).map Atom.charge
      = scale_charges (atoms.map Atom.charge) atoms.length ∧
    total_charge (charge_step false true atoms) = 0 := by
  have hlen : (scale_charges (atoms.map Atom.charge) atoms.length).length
      = atoms.length := by
    rw [scale_charges_length, List.length_map]
  have h1 : (charge_step false true atoms).map Atom.charge
      = scale_charges (atoms.map Atom.charge) atoms.length := by
    simp only [charge_step, if_false, Bool.not_false, Bool.and_true,
      Bool.false_eq_true, if_true, List.length_map]
    exact write_charges_map_charge _ _ (by simpa using hlen)
  refine ⟨h1, ?_⟩
  unfold total_charge
  rw [h1, scale_charges_sum]

/-! ### Claims about hydrogen removal (C4, C7) -/

/-- An H₂ molecule: two bonded hydrogens with asymmetric charges. -/
def h2_system : List Atom :=
  [Atom.mk 1 1.008 (1/10) [1], Atom.mk 1 1.008 (3/10) [0]]

/-- C4 counterexample: on H₂ each hydrogen's `bond_partners[0]` is the
other hydrogen, so the added mass and charge are stripped away with it;
removal completes without error but total mass drops from 2.016 to 0 and
total charge from 2/5 to 0. -/
theorem C4_counterexample :
    (remove_hydrogens_step h2_system).2 = false ∧
    total_mass h2_system = 2.016 ∧
    total_charge h2_system = 2/5 ∧
    total_mass ((remove_hydrogens_step h2_system).1.1) = 0 ∧
    total_charge ((remove_hydrogens_step h2_system).1.1) = 0 ∧
    total_mass ((remove_hydrogens_step h2_system).1.1) ≠ total_mass h2_system ∧
    total_charge ((remove_hydrogens_step h2_system).1.1) ≠ total_charge h2_system := by
  have h : remove_hydrogens_step h2_system = (([], false), false) := by
    norm_num [h2_system, remove_hydrogens_step, identify_hydrogens, idxWhere,
      process_hydrogens, adjust_heavy_atom]
  refine ⟨by rw [h], by norm_num [total_mass, h2_system],
    by norm_num [total_charge, h2_system], by rw [h]; rfl, by rw [h]; rfl, ?_, ?_⟩
  · rw [h]
    norm_num [total_mass, h2_system]
  · rw [h]
    norm_num [total_charge, h2_system]

/-- C7: hydrogens are identified first by atomic number 1 (the mass
criterion is not consulted when that finds any); if that finds none, by
mass 1.008; if both find none, the warning flag is set and the step
completes without error, removing nothing. -/
theorem C7_hydrogen_identification (atoms : List Atom) :
    ((∀ a ∈ atoms, a.atomic_number ≠ 1) → (∀ a ∈ atoms, a.mass ≠ 1.008) →
      remove_hydrogens_step atoms = ((atoms, true), false)) ∧
    ((∃ a ∈ atoms, a.atomic_number = 1) →
      identify_hydrogens atoms =
        (idxWhere (fun a => a.atomic_number == 1) atoms 0, false)) ∧
    ((∀ a ∈ atoms, a.atomic_number ≠ 1) → (∃ a ∈ atoms, a.mass = 1.008) →
      identify_hydrogens atoms =
        (idxWhere (fun a => a.mass == 1.008) atoms 0, false)) := by
  refine ⟨?_, ?_, ?_⟩
  · intro h1 h2
    have he : idxWhere (fun a => a.atomic_number == 1) atoms 0 = [] :=
      (idxWhere_eq_nil_iff _ _ _).mpr (fun a ha => by simpa using h1 a ha)
    have hm : idxWhere (fun a => a.mass == 1.008) atoms 0 = [] :=
      (idxWhere_eq_nil_iff _ _ _).mpr (fun a ha => by simpa using h2 a ha)
    have hfilter : atoms.filter (fun a => a.atomic_number != 1) = atoms :=
      List.filter_eq_self.mpr (fun a ha => by simpa using h1 a ha)
    simp [remove_hydrogens_step, identify_hydrogens, he, hm,
      process_hydrogens, hfilter]
  · intro hex
    have he : idxWhere (fun a => a.atomic_number == 1) atoms 0 ≠ [] := by
      intro hnil
      obtain ⟨a, ha, h1⟩ := hex
      have := (idxWhere_eq_nil_iff _ _ _).mp hnil a ha
      simp [h1] at this
    simp [identify_hydrogens, List.length_eq_zero, he]
  · intro h1 hex
    have he : idxWhere (fun a => a.atomic_number == 1) atoms 0 = [] :=
      (idxWhere_eq_nil_iff _ _ _).mpr (fun a ha => by simpa using h1 a ha)
    have hm : idxWhere (fun a => a.mass == 1.008) atoms 0 ≠ [] := by
      intro hnil
      obtain ⟨a, ha, h2⟩ := hex
      have := (idxWhere_eq_nil_iff _ _ _).mp hnil a ha
      simp [h2] at this
    simp [identify_hydrogens, List.length_eq_zero, he, hm]

/-- C7 witness: a hydrogen-free system is returned unchanged with the
warning flag and no error; an atomic-number-1 atom is found by element; a
mass-1.008 atom with a different atomic number is found by mass. -/
theorem C7_hydrogen_identification_witness :
    remove_hydrogens_step [Atom.mk 6 2 0 []] = (([Atom.mk 6 2 0 []], true), false) ∧
    identify_hydrogens [Atom.mk 1 2 0 [0]] =
      (idxWhere (fun a => a.atomic_number == 1) [Atom.mk 1 2 0 [0]] 0, false) ∧
    identify_hydrogens [Atom.mk 0 1.008 0 [0]] =
      (idxWhere (fun a => a.mass == 1.008) [Atom.mk 0 1.008 0 [0]] 0, false) :=
  ⟨(C7_hydrogen_identification [Atom.mk 6 2 0 []]).1 (by decide) (by norm_num),
   (C7_hydrogen_identification [Atom.mk 1 2 0 [0]]).2.1
     ⟨Atom.mk 1 2 0 [0], by simp, rfl⟩,
   (C7_hydrogen_identification [Atom.mk 0 1.008 0 [0]]).2.2 (by decide)
     ⟨Atom.mk 0 1.008 0 [0], by simp, rfl⟩⟩

/-! ### Index bookkeeping for the hydrogen loop -/

theorem mem_idxWhere_le {α : Type} {p : α → Bool} {l : List α} {i j : ℕ}
    (h : j ∈ idxWhere p l i) : i ≤ j := by
  induction l generalizing i with
  | nil => simp [idxWhere] at h
  | cons a rest ih =>
    cases hpa : p a <;> rw [idxWhere] at h <;> simp only [hpa] at h
    · exact Nat.le_of_succ_le (ih (by simpa using h))
    · simp only [if_true, List.mem_cons] at h
      rcases h with rfl | h
      · exact le_refl j
      · exact Nat.le_of_succ_le (ih h)

theorem idxWhere_succ {α : Type} (p : α → Bool) (l : List α) (i : ℕ) :
    idxWhere p l (i + 1) = (idxWhere p l i).map (· + 1) := by
  induction l generalizing i with
  | nil => simp [idxWhere]
  | cons a rest ih =>
    cases hpa : p a <;> simp [idxWhere, hpa, ih]

theorem mem_idxWhere_zero {α : Type} {p : α → Bool} {l : List α} {j : ℕ} :
    j ∈ idxWhere p l 0 ↔ ∃ a, l.get? j = some a ∧ p a = true := by
  induction l generalizing j with
  | nil => simp [idxWhere]
  | cons b rest ih =>
    have hrw : idxWhere p (b :: rest) 0
        = (if p b then [0] else []) ++ (idxWhere p rest 0).map (· + 1) := by
      cases hpb : p b <;> simp [idxWhere, hpb, idxWhere_succ]
    rw [hrw]
    cases j with
    | zero => cases hpb : p b <;> simp [hpb]
    | succ k => cases hpb : p b <;> simp [hpb, ih]

theorem nodup_idxWhere {α : Type} (p : α → Bool) (l : List α) (i : ℕ) :
    (idxWhere p l i).Nodup := by
  induction l generalizing i with
  | nil => simp [idxWhere]
  | cons a rest ih =>
    cases hpa : p a
    · simpa [idxWhere, hpa] using ih (i + 1)
    · simp only [idxWhere, hpa, if_true, List.nodup_cons]
      refine ⟨fun hmem => ?_, ih (i + 1)⟩
      have := mem_idxWhere_le hmem
      omega

theorem lt_of_get?_some {α : Type} {l : List α} {i : ℕ} {a : α}
    (h : l.get? i = some a) : i < l.length := by
  by_contra hc
  push_neg at hc
  rw [List.get?_eq_none.mpr hc] at h
  cases h

theorem get?_some_of_lt {α : Type} (l : List α) {i : ℕ} (h : i < l.length) :
    ∃ a, l.get? i = some a := by
  cases hg : l.get? i with
  | none =>
    rw [List.get?_eq_none] at hg
    omega
  | some a => exact ⟨a, rfl⟩

theorem sum_map_set {α : Type} (f : α → ℚ) (l : List α) (i : ℕ) (b : α)
    (h : i < l.length) :
    ((l.set i b).map f).sum = (l.map f).sum + f b - ((l.get? i).map f).getD 0 := by
  induction l generalizing i with
  | nil => simp at h
  | cons a rest ih =>
    cases i with
    | zero =>
      simp only [List.set_cons_zero, List.map_cons, List.sum_cons,
        List.get?_cons_zero, Option.map_some', Option.getD_some]
      ring
    | succ k =>
      have hk : k < rest.length := by simpa using h
      simp only [List.set_cons_succ, List.map_cons, List.sum_cons,
        List.get?_cons_succ, ih k hk]
      ring

theorem sum_filter_add_sum_filter_not (f : Atom → ℚ) (p : Atom → Bool)
    (l : List Atom) :
    ((l.filter p).map f).sum + ((l.filter (fun a => !(p a))).map f).sum
      = (l.map f).sum := by
  induction l with
  | nil => simp
  | cons a rest ih =>
    cases hpa : p a <;>
      simp only [List.filter_cons, hpa, Bool.not_false, Bool.not_true,
        if_true, if_false, List.map_cons, List.sum_cons, Bool.false_eq_true] <;>
      linarith [ih]

theorem sum_filter_eq_sum_idxWhere (f : Atom → ℚ) (p : Atom → Bool)
    (l : List Atom) :
    ((l.filter p).map f).sum
      = ((idxWhere p l 0).map (fun i => ((l.get? i).map f).getD 0)).sum := by
  induction l with
  | nil => simp [idxWhere]
  | cons a rest ih =>
    have hrw : idxWhere p (a :: rest) 0
        = (if p a then [0] else []) ++ (idxWhere p rest 0).map (· + 1) := by
      cases hpa : p a <;> simp [idxWhere, hpa, idxWhere_succ]
    rw [hrw]
    have hcomp : ∀ is : List ℕ,
        ((is.map (· + 1)).map (fun i => (((a :: rest).get? i).map f).getD 0))
          = is.map (fun i => ((rest.get? i).map f).getD 0) := by
      intro is
      rw [List.map_map]
      exact List.map_congr_left (fun i _ => by simp)
    cases hpa : p a <;>
      simp only [List.filter_cons, hpa, if_true, if_false, List.map_cons,
        List.sum_cons, List.nil_append, List.cons_append, List.map_append,
        List.sum_append, hcomp, ih, List.get?_cons_zero, Option.map_some',
        Option.getD_some, List.map_nil, List.sum_nil, Bool.false_eq_true]

theorem sum_map_eq_of_mem_iff (g : ℕ → ℚ) {l1 l2 : List ℕ}
    (h1 : l1.Nodup) (h2 : l2.Nodup) (hmem : ∀ i, i ∈ l1 ↔ i ∈ l2) :
    (l1.map g).sum = (l2.map g).sum := by
  rw [← List.sum_toFinset g h1, ← List.sum_toFinset g h2]
  congr 1
  ext i
  simp [List.mem_toFinset, hmem i]

/-! ### The hydrogen-loop invariant -/

def massAt (l : List Atom) (i : ℕ) : ℚ := ((l.get? i).map Atom.mass).getD 0

def chargeAt (l : List Atom) (i : ℕ) : ℚ := ((l.get? i).map Atom.charge).getD 0

def anAt (l : List Atom) (i : ℕ) : Option ℕ := (l.get? i).map Atom.atomic_number

def partnersAt (l : List Atom) (i : ℕ) : Option (List ℕ) :=
  (l.get? i).map Atom.bond_partners

/-- State of the atom list part-way through the `for h in hydrogens` loop,
relative to the original list `A`, the full hydrogen list `hs` and the
already-processed prefix `done`: lengths agree, hydrogens keep their
original mass and charge (their partners are never hydrogens), bond
partners never change, processed hydrogens have atomic number 1 and all
other atoms keep theirs, and the totals have grown by the masses/charges
of the processed hydrogens. -/
structure LoopInv (A : List Atom) (hs done : List ℕ) (cur : List Atom) : Prop where
  len : cur.length = A.length
  mass_hs : ∀ i ∈ hs, massAt cur i = massAt A i
  charge_hs : ∀ i ∈ hs, chargeAt cur i = chargeAt A i
  partners_eq : ∀ i, partnersAt cur i = partnersAt A i
  an_done : ∀ i ∈ done, anAt cur i = some 1
  an_rest : ∀ i, i ∉ done → anAt cur i = anAt A i
  mass_sum : total_mass cur = total_mass A + (done.map (massAt A)).sum
  charge_sum : total_charge cur = total_charge A + (done.map (chargeAt A)).sum

theorem process_hydrogens_ok (A : List Atom) (hs : List ℕ)
    (Hpart : ∀ h ∈ hs, ∃ a p, A.get? h = some a ∧
      a.bond_partners.head? = some p ∧ p < A.length ∧ p ∉ hs) :
    ∀ (todo done : List ℕ) (cur : List Atom),
      (∀ h ∈ todo, h ∈ hs) → (∀ h ∈ done, h ∈ hs) →
      LoopInv A hs done cur →
      ∃ cur', process_hydrogens todo cur = (cur', false) ∧
        LoopInv A hs (done ++ todo) cur' := by
  intro todo
  induction todo with
  | nil =>
    intro done cur _ _ inv
    exact ⟨cur, rfl, by simpa using inv⟩
  | cons h rest ih =>
    intro done cur htodo hdone inv
    have hh : h ∈ hs := htodo h (by simp)
    obtain ⟨a0, p, hget0, hhead0, hplt, hpnot⟩ := Hpart h hh
    have hAlt : h < A.length := lt_of_get?_some hget0
    have hhlt : h < cur.length := by rw [inv.len]; exact hAlt
    obtain ⟨ha, hgetc⟩ := get?_some_of_lt cur hhlt
    have hph : p ≠ h := fun he => hpnot (he ▸ hh)
    have hpartner_c : ha.bond_partners = a0.bond_partners := by
      have hx := inv.partners_eq h
      rw [partnersAt, partnersAt, hgetc, hget0] at hx
      simpa using hx
    have hmass_c : ha.mass = a0.mass := by
      have hx := inv.mass_hs h hh
      rw [massAt, massAt, hgetc, hget0] at hx
      simpa using hx
    have hmassA : massAt A h = ha.mass := by
      rw [massAt, hget0]
      simpa using hmass_c.symm
    have hcharge_c : ha.charge = a0.charge := by
      have hx := inv.charge_hs h hh
      rw [chargeAt, chargeAt, hgetc, hget0] at hx
      simpa using hx
    have hchargeA : chargeAt A h = ha.charge := by
      rw [chargeAt, hget0]
      simpa using hcharge_c.symm
    have hplt1 : p < (cur.set h { ha with atomic_number := 1 }).length := by
      rw [List.length_set, inv.len]; exact hplt
    obtain ⟨pa, hgetp⟩ := get?_some_of_lt (cur.set h { ha with atomic_number := 1 }) hplt1
    have hgetp0 : cur.get? p = some pa := by
      rw [List.get?_set_ne _ _ (Ne.symm hph)] at hgetp
      exact hgetp
    have hheadc : ha.bond_partners.head? = some p := by
      rw [hpartner_c]
      exact hhead0
    have hadj : adjust_heavy_atom cur h
        = ((cur.set h { ha with atomic_number := 1 }).set p
            { pa with mass := pa.mass + ha.mass, charge := pa.charge + ha.charge },
           false) := by
      simp only [adjust_heavy_atom, hgetc, hheadc, hgetp]
    have hstep : process_hydrogens (h :: rest) cur
        = process_hydrogens rest
            ((cur.set h { ha with atomic_number := 1 }).set p
              { pa with mass := pa.mass + ha.mass, charge := pa.charge + ha.charge }) := by
      rw [process_hydrogens, hadj]
    set cur2 := (cur.set h { ha with atomic_number := 1 }).set p
      { pa with mass := pa.mass + ha.mass, charge := pa.charge + ha.charge } with hcur2
    have hget2 : ∀ i : ℕ, cur2.get? i
        = if i = p then
            some { pa with mass := pa.mass + ha.mass, charge := pa.charge + ha.charge }
          else if i = h then some { ha with atomic_number := 1 }
          else cur.get? i := by
      intro i
      by_cases hip : i = p
      · subst hip
        rw [if_pos rfl, hcur2, List.get?_set_eq_of_lt _ hplt1]
      · rw [if_neg hip, hcur2, List.get?_set_ne _ _ (fun he => hip he.symm)]
        by_cases hih : i = h
        · subst hih
          rw [if_pos rfl, List.get?_set_eq_of_lt _ hhlt]
        · rw [if_neg hih, List.get?_set_ne _ _ (fun he => hih he.symm)]
    have hinv2 : LoopInv A hs (done ++ [h]) cur2 := by
      refine ⟨?_, ?_, ?_, ?_, ?_, ?_, ?_, ?_⟩
      · rw [hcur2]
        simp [inv.len]
      · intro i hi
        have hip : i ≠ p := fun he => hpnot (he ▸ hi)
        rw [massAt, hget2 i, if_neg hip]
        by_cases hih : i = h
        · subst hih
          rw [if_pos rfl]
          simpa using hmassA.symm
        · rw [if_neg hih]
          exact inv.mass_hs i hi
      · intro i hi
        have hip : i ≠ p := fun he => hpnot (he ▸ hi)
        rw [chargeAt, hget2 i, if_neg hip]
        by_cases hih : i = h
        · subst hih
          rw [if_pos rfl]
          simpa using hchargeA.symm
        · rw [if_neg hih]
          exact inv.charge_hs i hi
      · intro i
        rw [partnersAt, hget2 i]
        by_cases hip : i = p
        · rw [if_pos hip, hip]
          have hx := inv.partners_eq p
          rw [partnersAt, hgetp0] at hx
          simpa using hx
        · rw [if_neg hip]
          by_cases hih : i = h
          · rw [if_pos hih, hih]
            have hx := inv.partners_eq h
            rw [partnersAt, hgetc] at hx
            simpa using hx
          · rw [if_neg hih]
            exact inv.partners_eq i
      · intro i hi
        rcases List.mem_append.mp hi with hid | hih
        · have hip : i ≠ p := fun he => hpnot (he ▸ hdone i hid)
          rw [anAt, hget2 i, if_neg hip]
          by_cases hih : i = h
          · subst hih
            simp
          · rw [if_neg hih]
            exact inv.an_done i hid
        · have hih : i = h := by simpa using hih
          rw [anAt, hget2 i, hih, if_neg (Ne.symm hph), if_pos rfl]
          simp
      · intro i hi
        have hid : i ∉ done := fun hx => hi (List.mem_append.mpr (Or.inl hx))
        have hih : i ≠ h := fun hx => hi (List.mem_append.mpr (Or.inr (by simp [hx])))
        rw [anAt, hget2 i]
        by_cases hip : i = p
        · rw [if_pos hip, hip]
          have hx := inv.an_rest p (hip ▸ hid)
          rw [anAt, hgetp0] at hx
          simpa using hx
        · rw [if_neg hip, if_neg hih]
          exact inv.an_rest i hid
      · rw [hcur2, total_mass, sum_map_set _ _ _ _ hplt1,
          List.get?_set_ne _ _ (Ne.symm hph), hgetp0]
        have h1 : ((cur.set h { ha with atomic_number := 1 }).map Atom.mass).sum
            = (cur.map Atom.mass).sum := by
          rw [sum_map_set _ _ _ _ hhlt, hgetc]
          simp
        rw [h1]
        have h2 := inv.mass_sum
        rw [total_mass] at h2
        rw [h2, List.map_append, List.sum_append]
        simp [hmassA]
        ring
      · rw [hcur2, total_charge, sum_map_set _ _ _ _ hplt1,
          List.get?_set_ne _ _ (Ne.symm hph), hgetp0]
        have h1 : ((cur.set h { ha with atomic_number := 1 }).map Atom.charge).sum
            = (cur.map Atom.charge).sum := by
          rw [sum_map_set _ _ _ _ hhlt, hgetc]
          simp
        rw [h1]
        have h2 := inv.charge_sum
        rw [total_charge] at h2
        rw [h2, List.map_append, List.sum_append]
        simp [hchargeA]
        ring
    obtain ⟨cur', hrun, hinvf⟩ := ih (done ++ [h]) cur2
      (fun x hx => htodo x (by simp [hx]))
      (fun x hx => by
        rcases List.mem_append.mp hx with hx1 | hx2
        · exact hdone x hx1
        · have : x = h := by simpa using hx2
          exact this ▸ hh)
      hinv2
    refine ⟨cur', by rw [hstep, hrun], ?_⟩
    have : done ++ [h] ++ rest = done ++ h :: rest := by
      rw [List.append_assoc, List.singleton_append]
    rwa [this] at hinvf

theorem stripped_sum (f : Atom → ℚ) (atoms cur : List Atom) (hs : List ℕ)
    (hnodup : hs.Nodup)
    (hfinal : ∀ i, (∃ a, cur.get? i = some a ∧ a.atomic_number = 1) ↔ i ∈ hs)
    (hkeep : ∀ i ∈ hs, ((cur.get? i).map f).getD 0 = ((atoms.get? i).map f).getD 0)
    (hsum : (cur.map f).sum = (atoms.map f).sum
      + (hs.map (fun i => ((atoms.get? i).map f).getD 0)).sum) :
    ((cur.filter (fun a => a.atomic_number != 1)).map f).sum = (atoms.map f).sum := by
  have hsplit := sum_filter_add_sum_filter_not f (fun a => a.atomic_number == 1) cur
  have hidx := sum_filter_eq_sum_idxWhere f (fun a => a.atomic_number == 1) cur
  have hmemiff : ∀ i,
      i ∈ idxWhere (fun a => a.atomic_number == 1) cur 0 ↔ i ∈ hs := by
    intro i
    simp only [mem_idxWhere_zero, beq_iff_eq]
    exact hfinal i
  have h1 : ((idxWhere (fun a => a.atomic_number == 1) cur 0).map
        (fun i => ((cur.get? i).map f).getD 0)).sum
      = (hs.map (fun i => ((cur.get? i).map f).getD 0)).sum :=
    sum_map_eq_of_mem_iff _ (nodup_idxWhere _ _ _) hnodup hmemiff
  have h2 : (hs.map (fun i => ((cur.get? i).map f).getD 0)).sum
      = (hs.map (fun i => ((atoms.get? i).map f).getD 0)).sum :=
    congrArg List.sum (List.map_congr_left hkeep)
  have hfneg : (cur.filter (fun a => a.atomic_number != 1))
      = cur.filter (fun a => !(a.atomic_number == 1)) := rfl
  rw [hfneg]
  linarith [hsplit, hidx, h1, h2, hsum]

/-- C4 (amended): hydrogen removal conserves total mass and total charge
provided every identified hydrogen has at least one bond partner and its
first bond partner is not itself an identified hydrogen; without that
proviso conservation fails (see the H₂ counterexample), since the code adds
to `bond_partners[0]` whether or not it is a heavy atom. -/
theorem C4_mass_charge_conserved (atoms : List Atom)
    (Hpart : ∀ h ∈ (identify_hydrogens atoms).1,
      ∃ a p, atoms.get? h = some a ∧ a.bond_partners.head? = some p ∧
        p < atoms.length ∧ p ∉ (identify_hydrogens atoms).1) :
    (remove_hydrogens_step atoms).2 = false ∧
    total_mass ((remove_hydrogens_step atoms).1.1) = total_mass atoms ∧
    total_charge ((remove_hydrogens_step atoms).1.1) = total_charge atoms := by
  have hid : (identify_hydrogens atoms).1
        = idxWhere (fun a => a.atomic_number == 1) atoms 0 ∨
      (idxWhere (fun a => a.atomic_number == 1) atoms 0 = [] ∧
        ((identify_hydrogens atoms).1
            = idxWhere (fun a => a.mass == 1.008) atoms 0 ∨
         (identify_hydrogens atoms).1 = [])) := by
    simp only [identify_hydrogens]
    split
    · next hlen =>
      refine Or.inr ⟨List.length_eq_zero.mp hlen, ?_⟩
      split
      · next => exact Or.inr rfl
      · next => exact Or.inl rfl
    · next => exact Or.inl rfl
  have hnodup : (identify_hydrogens atoms).1.Nodup := by
    rcases hid with h | ⟨_, h | h⟩ <;> rw [h]
    · exact nodup_idxWhere _ _ _
    · exact nodup_idxWhere _ _ _
    · exact List.nodup_nil
  have hID1 : ∀ i a, atoms.get? i = some a → a.atomic_number = 1 →
      i ∈ (identify_hydrogens atoms).1 := by
    intro i a hget h1
    rcases hid with h | ⟨hnil, _⟩
    · rw [h]
      exact mem_idxWhere_zero.mpr ⟨a, hget, by simp [h1]⟩
    · exfalso
      have hmem : a ∈ atoms := List.get?_mem hget
      have := (idxWhere_eq_nil_iff _ _ _).mp hnil a hmem
      simp [h1] at this
  have hinit : LoopInv atoms (identify_hydrogens atoms).1 [] atoms := by
    refine ⟨rfl, fun i _ => rfl, fun i _ => rfl, fun i => rfl, ?_,
      fun i _ => rfl, by simp, by simp⟩
    intro i hi
    simp at hi
  obtain ⟨cur, hrun, inv⟩ := process_hydrogens_ok atoms
    (identify_hydrogens atoms).1 Hpart (identify_hydrogens atoms).1 [] atoms
    (fun x hx => hx) (fun x hx => by simp at hx) hinit
  rw [List.nil_append] at inv
  have hstep : remove_hydrogens_step atoms
      = ((cur.filter (fun a => a.atomic_number != 1),
          (identify_hydrogens atoms).2), false) := by
    simp [remove_hydrogens_step, hrun]
  have hfinal : ∀ i : ℕ, (∃ a, cur.get? i = some a ∧ a.atomic_number = 1)
      ↔ i ∈ (identify_hydrogens atoms).1 := by
    intro i
    constructor
    · rintro ⟨a, hget, h1⟩
      by_contra hnot
      have hx := inv.an_rest i hnot
      rw [anAt, anAt, hget] at hx
      rcases hg : atoms.get? i with _ | a0
      · rw [hg] at hx
        simp at hx
      · rw [hg] at hx
        simp only [Option.map_some', Option.some.injEq] at hx
        exact hnot (hID1 i a0 hg (by rw [← hx, h1]))
    · intro hi
      have hx := inv.an_done i hi
      rw [anAt] at hx
      rcases hg : cur.get? i with _ | a
      · rw [hg] at hx
        simp at hx
      · rw [hg] at hx
        simp only [Option.map_some', Option.some.injEq] at hx
        exact ⟨a, rfl, hx⟩
  have hkeep_m : ∀ i ∈ (identify_hydrogens atoms).1,
      ((cur.get? i).map Atom.mass).getD 0
        = ((atoms.get? i).map Atom.mass).getD 0 :=
    fun i hi => inv.mass_hs i hi
  have hkeep_c : ∀ i ∈ (identify_hydrogens atoms).1,
      ((cur.get? i).map Atom.charge).getD 0
        = ((atoms.get? i).map Atom.charge).getD 0 :=
    fun i hi => inv.charge_hs i hi
  have hm := stripped_sum Atom.mass atoms cur (identify_hydrogens atoms).1
    hnodup hfinal hkeep_m inv.mass_sum
  have hc := stripped_sum Atom.charge atoms cur (identify_hydrogens atoms).1
    hnodup hfinal hkeep_c inv.charge_sum
  rw [hstep]
  exact ⟨rfl, hm, hc⟩

/-- C4 witness: a water-like molecule (one oxygen, two hydrogens bonded to
it) keeps its total mass and charge through hydrogen removal. -/
theorem C4_mass_charge_conserved_witness :
    (remove_hydrogens_step
      [Atom.mk 8 16 (-2) [1, 2], Atom.mk 1 1 1 [0], Atom.mk 1 1 1 [0]]).2 = false ∧
    total_mass ((remove_hydrogens_step
      [Atom.mk 8 16 (-2) [1, 2], Atom.mk 1 1 1 [0], Atom.mk 1 1 1 [0]]).1.1)
      = total_mass [Atom.mk 8 16 (-2) [1, 2], Atom.mk 1 1 1 [0], Atom.mk 1 1 1 [0]] ∧
    total_charge ((remove_hydrogens_step
      [Atom.mk 8 16 (-2) [1, 2], Atom.mk 1 1 1 [0], Atom.mk 1 1 1 [0]]).1.1)
      = total_charge [Atom.mk 8 16 (-2) [1, 2], Atom.mk 1 1 1 [0], Atom.mk 1 1 1 [0]] := by
  refine C4_mass_charge_conserved
    [Atom.mk 8 16 (-2) [1, 2], Atom.mk 1 1 1 [0], Atom.mk 1 1 1 [0]] ?_
  have hs_eq : (identify_hydrogens
      [Atom.mk 8 16 (-2) [1, 2], Atom.mk 1 1 1 [0], Atom.mk 1 1 1 [0]]).1
      = [1, 2] := by
    simp [identify_hydrogens, idxWhere]
  rw [hs_eq]
  intro h hh
  simp only [List.mem_cons, List.not_mem_nil, or_false] at hh
  rcases hh with rfl | rfl
  · exact ⟨Atom.mk 1 1 1 [0], 0, rfl, rfl, by simp, by decide⟩
  · exact ⟨Atom.mk 1 1 1 [0], 0, rfl, rfl, by simp, by decide⟩

/-! ### System state, `apply_forcefield` control flow and the accessors -/

/-- Opaque stand-ins for the external hoomd objects. -/
abbrev Snapshot := ℕ

abbrev HoomdForceField := ℕ

abbrev RefValues := ℕ

/-- A Python exception escaping `apply_forcefield`. -/
inductive PyErr
  | typingError
  | indexError
  | buildError
deriving DecidableEq

/-- The fields of a `System` instance that `apply_forcefield` touches;
`none` is Python `None`. -/
structure SystemState where
  typed_system : Option (List Atom)
  hoomd_objects : Option (Snapshot × HoomdForceField)
  reference_values : Option RefValues
deriving DecidableEq

/-- A freshly constructed `System`: all three fields are `None`. -/
def fresh_state : SystemState := ⟨none, none, none⟩

/-- Embedding of `System.apply_forcefield`.  The two external calls are
passed in as oracles: `ff_apply` is the result of `forcefield.apply(...)`
and `create_hoomd` is `create_hoomd_forcefield(...)`, each either a value
or a raised exception.  The returned pair is the state the object is left
in together with the exception that escaped, if any; on an exception the
fields already assigned keep their new values, exactly as in Python. -/
def apply_forcefield (st : SystemState)
    (ff_apply : Except PyErr (List Atom))
    (create_hoomd : List Atom → Except PyErr (Snapshot × HoomdForceField × RefValues))
    (remove_hydrogens remove_charges make_charge_neutral : Bool) :
    SystemState × Option PyErr :=
  match ff_apply with
  | .error e => (st, some e)
  | .ok typed0 =>
    let st1 : SystemState := { st with typed_system := some typed0 }
    let hstep := if remove_hydrogens then remove_hydrogens_step typed0
                 else ((typed0, false), false)
    if hstep.2 then
      ({ st1 with typed_system := some hstep.1.1 }, some PyErr.indexError)
    else
      let typed2 := charge_step remove_charges make_charge_neutral hstep.1.1
      let st2 : SystemState := { st1 with typed_system := some typed2 }
      match create_hoomd typed2 with
      | .error e => (st2, some e)
      | .ok (snap, ff, refs) =>
        ({ st2 with hoomd_objects := some (snap, ff),
                    reference_values := some refs }, none)

/-- A `create_hoomd_forcefield` call that raises. -/
def failing_create :
    List Atom → Except PyErr (Snapshot × HoomdForceField × RefValues) :=
  fun _ => .error PyErr.buildError

/-- C3 counterexample: `typed_system` is assigned before the snapshot is
built, so when `create_hoomd_forcefield` raises on a fresh system the
object is left with `typed_system` present but `hoomd_objects` and
`reference_values` absent — the three fields are not all-or-nothing. -/
theorem C3_counterexample :
    ((apply_forcefield fresh_state (.ok []) failing_create
        false false false).1.typed_system).isSome = true ∧
    ((apply_forcefield fresh_state (.ok []) failing_create
        false false false).1.hoomd_objects).isSome = false ∧
    ((apply_forcefield fresh_state (.ok []) failing_create
        false false false).1.reference_values).isSome = false := by
  refine ⟨rfl, rfl, rfl⟩

/-- C3 (amended): `hoomd_objects` and `reference_values` are assigned
together in the final step, so their joint presence is all-or-nothing; and
when `apply_forcefield` returns without an exception all three fields are
present.  `typed_system`, however, is assigned at the start, so a failure
of a later step leaves it present while the other two are still absent. -/
theorem C3_pair_atomic (st : SystemState)
    (ff_apply : Except PyErr (List Atom))
    (create_hoomd : List Atom → Except PyErr (Snapshot × HoomdForceField × RefValues))
    (remove_hydrogens remove_charges make_charge_neutral : Bool)
    (hinit : st.hoomd_objects.isSome = st.reference_values.isSome) :
    ((apply_forcefield st ff_apply create_hoomd remove_hydrogens
        remove_charges make_charge_neutral).1.hoomd_objects).isSome
      = ((apply_forcefield st ff_apply create_hoomd remove_hydrogens
          remove_charges make_charge_neutral).1.reference_values).isSome ∧
    ((apply_forcefield st ff_apply create_hoomd remove_hydrogens
        remove_charges make_charge_neutral).2 = none →
      ((apply_forcefield st ff_apply create_hoomd remove_hydrogens
          remove_charges make_charge_neutral).1.typed_system).isSome = true ∧
      ((apply_forcefield st ff_apply create_hoomd remove_hydrogens
          remove_charges make_charge_neutral).1.hoomd_objects).isSome = true ∧
      ((apply_forcefield st ff_apply create_hoomd remove_hydrogens
          remove_charges make_charge_neutral).1.reference_values).isSome = true) := by
  unfold apply_forcefield
  rcases ff_apply with e | typed0
  · exact ⟨hinit, by intro h; cases h⟩
  · simp only []
    by_cases hh : (if remove_hydrogens then remove_hydrogens_step typed0
        else ((typed0, false), false)).2 = true
    · rw [if_pos hh]
      exact ⟨hinit, by intro h; cases h⟩
    · rw [if_neg hh]
      rcases create_hoomd (charge_step remove_charges make_charge_neutral
          (if remove_hydrogens then remove_hydrogens_step typed0
            else ((typed0, false), false)).1.1) with e | v
      · exact ⟨hinit, by intro h; cases h⟩
      · exact ⟨rfl, fun _ => ⟨rfl, rfl, rfl⟩⟩

/-- C3 witness: a successful run from a fresh state populates all three
fields, and presence of `hoomd_objects` and `reference_values` agree. -/
theorem C3_pair_atomic_witness :
    ((apply_forcefield fresh_state (.ok []) (fun _ => .ok (0, 0, 0))
        false false false).1.hoomd_objects).isSome
      = ((apply_forcefield fresh_state (.ok []) (fun _ => .ok (0, 0, 0))
          false false false).1.reference_values).isSome ∧
    ((apply_forcefield fresh_state (.ok []) (fun _ => .ok (0, 0, 0))
        false false false).2 = none →
      ((apply_forcefield fresh_state (.ok []) (fun _ => .ok (0, 0, 0))
          false false false).1.typed_system).isSome = true ∧
      ((apply_forcefield fresh_state (.ok []) (fun _ => .ok (0, 0, 0))
          false false false).1.hoomd_objects).isSome = true ∧
      ((apply_forcefield fresh_state (.ok []) (fun _ => .ok (0, 0, 0))
          false false false).1.reference_values).isSome = true) :=
  C3_pair_atomic fresh_state (.ok []) (fun _ => .ok (0, 0, 0))
    false false false rfl

/-- An exception raised by a property getter. -/
inductive GetterErr
  | valueError
  | recursionError
deriving DecidableEq

/-- Embedding of the `hoomd_snapshot` property: raises when
`_hoomd_objects` is still `None`, else returns its first component. -/
def hoomd_snapshot (st : SystemState) : Except GetterErr Snapshot :=
  match st.hoomd_objects with
  | none => .error GetterErr.valueError
  | some objs => .ok objs.1

/-- Embedding of the `hoomd_forcefield` property as written in the source:
its guard reads `self.hoomd_forcefield` — the property itself — and so does
its `else` branch, so every evaluation first re-enters the property.  The
fuel argument is Python's recursion limit; exhausting it is Python's
`RecursionError`. -/
def hoomd_forcefield_read : ℕ → SystemState → Except GetterErr HoomdForceField
  | 0, _ => .error GetterErr.recursionError
  | n + 1, st =>
    match hoomd_forcefield_read n st with
    | .error e => .error e
    | .ok v => if v == 0 then .error GetterErr.valueError
               else hoomd_forcefield_read n st

/-- C5: before `apply_forcefield` succeeds the snapshot property raises the
not-yet-created error, but the force-field property never does — its guard
recurses into itself, so for every recursion limit it dies with
`RecursionError` (in every state, even after a successful apply). -/
theorem C5_accessor_errors (fuel : ℕ) (st : SystemState) :
    (st.hoomd_objects = none →
      hoomd_snapshot st = .error GetterErr.valueError) ∧
    hoomd_forcefield_read fuel st = .error GetterErr.recursionError := by
  constructor
  · intro h
    rw [hoomd_snapshot, h]
  · induction fuel with
    | zero => rfl
    | succ n ih => rw [hoomd_forcefield_read, ih]

/-- C5 witness: on a fresh `System` the snapshot read raises the
value error and the force-field read exhausts a recursion limit of 100. -/
theorem C5_accessor_errors_witness :
    (fresh_state.hoomd_objects = none →
      hoomd_snapshot fresh_state = .error GetterErr.valueError) ∧
    hoomd_forcefield_read 100 fresh_state = .error GetterErr.recursionError :=
  C5_accessor_errors 100 fresh_state

/-! ### Constructor input handling -/

/-- The shapes a `molecule` argument can take: a `Molecule` object carrying
its `molecules` list, a (nested) list of molecule lists, or anything else
(matched by neither `isinstance` test); the payloads are opaque mbuild
molecules, stood in for by `ℕ`. -/
inductive MoleculeInput
  | molecule (mols : List ℕ)
  | nested (ls : List (List ℕ))
  | other (tag : ℕ)
deriving DecidableEq

inductive InitErr
  | invalidInput
deriving DecidableEq

/-- Embedding of the molecule-input handling in `System.__init__`: a list
extends `molecules` with each inner list, a `Molecule` contributes its
`molecules`, and anything else falls through both `isinstance` branches
with no `else` clause, leaving `molecules` empty and raising nothing. -/
def init_molecules : MoleculeInput → Except InitErr (List ℕ)
  | .nested ls => .ok ls.join
  | .molecule mols => .ok mols
  | .other _ => .ok []

/-- C6 counterexample: an input that is neither a `Molecule` nor a list is
accepted without `InvalidInputError` — construction succeeds with an empty
molecule list. -/
theorem C6_counterexample :
    init_molecules (MoleculeInput.other 0) = .ok [] ∧
    init_molecules (MoleculeInput.other 0) ≠ .error InitErr.invalidInput := by
  exact ⟨rfl, by simp [init_molecules]⟩

/-- C6 (amended): a molecule input of unrecognized shape is silently
ignored — the constructor raises no error and `self.molecules` stays
empty. -/
theorem C6_unrecognized_input_silent (tag : ℕ) :
    init_molecules (MoleculeInput.other tag) = .ok [] := rfl

end HoomdPolymers
